import Mathlib

/-!
Verification of the flask-api repository's specification against a shallow
embedding of its three source files:

* `src/mixins/resource.py` — the `ResourceMixin` ORM helper class
  (`sort_by`, `get_bulk_action_ids`, `bulk_delete`, `update`);
* `src/resources/auth.py` — the `AuthView` Flask handlers
  (`login`, `reset_password_request`, `reset_password`,
  `access_token_revoke`, `refresh_token_revoke`);
* `src/tests/conftest.py` — the fixture helpers `_get_rotation_date` and
  `_get_operating_time_date`.

Pure logic is translated directly; database and framework effects are made
explicit (the table is a list of rows, an object is a finite map from
attribute names to values, randomness is an explicit stream of drawn dates,
Python exceptions are `Except`).
-/

namespace FlaskApi

/-! ## `ResourceMixin.sort_by` (src/mixins/resource.py lines 14–31)

`cls.__table__.columns` is modelled as the list of the table's column
names; membership of a string in a SQLAlchemy `ColumnCollection` is
membership among its keys.  The Python body reassigns `field` and
`direction` before returning the pair. -/

def sort_by (columns : List String) (field direction : String) :
    String × String :=
  let field := if field ∈ columns then field else "created_at"
  let direction := if direction = "asc" ∨ direction = "desc" then direction
    else "asc"
  (field, direction)

/-! ## `ResourceMixin.get_bulk_action_ids` (src/mixins/resource.py lines 33–54)

Python values flowing through this function are either integers (the ids
the callers pass) or strings (`map(str, omit_ids)` coerces every omitted
id to its decimal string).  `PyVal` captures exactly these two cases, with
Python's cross-type `==` returning `False` between an `int` and a `str`.

`omit_ids = map(str, omit_ids)` produces a (truthy, even when empty) map
*iterator*; each `id not in omit_ids` test in the list comprehension
consumes that iterator until a match is found or it is exhausted, so the
remaining iterator is threaded through the comprehension. -/

inductive PyVal where
  | intV (n : Int)
  | strV (s : String)
  deriving DecidableEq, Repr

/-- Whether a Python value is an `int`. -/
def PyVal.isInt : PyVal → Bool
  | PyVal.intV _ => true
  | PyVal.strV _ => false

/-- Python `==` between the values occurring here: `int == int` and
`str == str` compare the payloads, `int == str` is always `False`. -/
def pyEq : PyVal → PyVal → Bool
  | PyVal.intV a, PyVal.intV b => a = b
  | PyVal.strV a, PyVal.strV b => a = b
  | _, _ => false

/-- Python `str(...)` on the values occurring here. -/
def pyStr : PyVal → String
  | PyVal.intV n => toString n
  | PyVal.strV s => s

/-- `x in it` on an iterator `it`: scans for a `pyEq`-match, consuming the
scanned prefix; returns the verdict and the remaining iterator. -/
def iterContains (x : PyVal) : List PyVal → Bool × List PyVal
  | [] => (false, [])
  | y :: ys => if pyEq x y then (true, ys) else iterContains x ys

/-- The list comprehension `[id for id in ids if id not in omit_ids]` with
`omit_ids` an iterator: the iterator state is threaded left to right. -/
def compFilter : List PyVal → List PyVal → List PyVal
  | [], _ => []
  | id :: ids, it =>
    let r := iterContains id it
    if r.1 then compFilter ids r.2 else id :: compFilter ids r.2

def get_bulk_action_ids (ids : List PyVal) (omit_ids : List PyVal := []) :
    List PyVal :=
  let omit_ids := omit_ids.map (fun v => PyVal.strV (pyStr v))
  -- `if omit_ids:` — a map object is always truthy, so the branch is taken.
  compFilter ids omit_ids

/-! ## `ResourceMixin.bulk_delete` (src/mixins/resource.py lines 56–69)

The table is a list of rows; `cls.query.filter(cls.id.in_(ids)).delete`
removes every row whose `id` column is in `ids` and returns how many rows
it removed. -/

structure Row where
  id : Int
  payload : String
  deriving DecidableEq, Repr

def bulk_delete (ids : List Int) (table : List Row) : Nat × List Row :=
  let delete_count := (table.filter (fun r => r.id ∈ ids)).length
  (delete_count, table.filter (fun r => r.id ∉ ids))

/-! ## `ResourceMixin.update` (src/mixins/resource.py lines 91–98)

A model instance is a finite map from attribute names to values
(`none` = the instance has no such attribute, so `hasattr` is false and
`setattr` is skipped).  The dict `values` is its list of key/value pairs
in iteration order; a Python dict's keys are pairwise distinct.  The
method mutates `self` and returns `self`, so the embedding returns the
updated instance twice: final state and return value. -/

def Obj (V : Type) := String → Option V

def hasattr {V : Type} (o : Obj V) (k : String) : Bool := (o k).isSome

def setattr {V : Type} (o : Obj V) (k : String) (v : V) : Obj V :=
  fun k' => if k' = k then some v else o k'

/-- One iteration of the `for key, value in values.items()` loop:
`if hasattr(self, key): setattr(self, key, value)`. -/
def updStep {V : Type} (acc : Obj V) (kv : String × V) : Obj V :=
  if hasattr acc kv.1 then setattr acc kv.1 kv.2 else acc

def update {V : Type} (o : Obj V) (values : List (String × V)) :
    Obj V × Obj V :=
  let o := values.foldl updStep o
  (o, o)

/-! ## `AuthView.login` (src/resources/auth.py lines 22–48)

`login_schema.load` either raises `ValidationError` (modelled as
`Except.error` carrying `error.messages`) or returns the validated data;
`authentication_manager.login` is the delegate the handler's result is
returned from.  The handler's two possible responses have different
shapes: the dict `{'errors': error.messages}` paired with status 422, or
whatever the authentication manager returns. -/

inductive LoginResult (E R : Type) where
  | validationError (errors : E) (status : Nat)
  | success (r : R)
  deriving DecidableEq, Repr

def login {J E D R : Type} (load : J → Except E D) (mgr_login : D → R)
    (json_data : J) : LoginResult E R :=
  match load json_data with
  | Except.error error => LoginResult.validationError error 422
  | Except.ok data => LoginResult.success (mgr_login data)

/-! ## `AuthView.reset_password_request` / `AuthView.reset_password`
(src/resources/auth.py lines 50–59)

Both bodies are a bare `pass`: no state is read or written and the view
returns `None`.  The embedding threads an abstract handler state and
returns an optional response. -/

def reset_password_request {St Resp : Type} (s : St) : St × Option Resp :=
  (s, none)

def reset_password {St Resp : Type} (token : String) (s : St) :
    St × Option Resp :=
  (s, none)

/-! ## `AuthView.access_token_revoke` / `AuthView.refresh_token_revoke`
(src/resources/auth.py lines 61–129)

`authentication_manager.revoke_token(jti)` either succeeds or raises;
the bare `except:` catches every exception, so the handler is a total
function of the delegate's outcome.  A Flask handler returning a plain
dict responds with status 200; returning `(dict, 500)` sets the status.
The response is modelled as the `message` string paired with the HTTP
status. -/

def access_token_revoke {E : Type} (revoke_token : String → Except E Unit)
    (jti : String) : String × Nat :=
  match revoke_token jti with
  | Except.ok _ => ("Access token has been revoked", 200)
  | Except.error _ => ("Something went wrong", 500)

def refresh_token_revoke {E : Type} (revoke_token : String → Except E Unit)
    (jti : String) : String × Nat :=
  match revoke_token jti with
  | Except.ok _ => ("Access token has been revoked", 200)
  | Except.error _ => ("Something went wrong", 500)

/-! ## `_get_rotation_date` / `_get_operating_time_date`
(src/tests/conftest.py lines 277–289)

`_get_random_date()` draws a random date from the current year's range;
the draws are modelled as an explicit stream `dates : Nat → String` of
formatted dates, consumed one per call, with `k` the index of the next
draw.  `RotationService.is_exists(date, machine_id)` (respectively
`OperatingTimeService.is_exists`) is the pre-insert existence check, a
parameter of the embedding.  The Python functions recurse without a
termination guarantee, so the embedding takes explicit fuel and returns
`none` when the fuel is exhausted: `some d` means the Python call returns
the string `d` after at most `fuel` draws. -/

def _get_rotation_date (is_exists : String → Int → Bool)
    (dates : Nat → String) (machine_id : Int) :
    Nat → Nat → Option String
  | 0, _ => none
  | fuel + 1, k =>
    if is_exists (dates k) machine_id then
      _get_rotation_date is_exists dates machine_id fuel (k + 1)
    else some (dates k)

def _get_operating_time_date (is_exists : String → Int → Bool)
    (dates : Nat → String) (machine_id : Int) :
    Nat → Nat → Option String
  | 0, _ => none
  | fuel + 1, k =>
    if is_exists (dates k) machine_id then
      _get_operating_time_date is_exists dates machine_id fuel (k + 1)
    else some (dates k)

/-- A year range in which `2025-01-02` has no rotation record, while the
draw stream keeps proposing `2025-01-01`, which has one: a scenario
satisfying the uniqueness precondition under which the fixture helpers
still never return. -/
def stuckExists : String → Int → Bool := fun d _ => d ≠ "2025-01-02"

def stuckDates : Nat → String := fun _ => "2025-01-01"

def yearRange : List String := ["2025-01-01", "2025-01-02"]

end FlaskApi

namespace FlaskApi

/-- C1: `ResourceMixin.sort_by` returns the pair unchanged when `field` is a
table column and `direction` is `asc` or `desc`; otherwise it substitutes
`created_at` for an unknown field and `asc` for an unknown direction, so the
returned field is always a table column or `created_at` and the returned
direction is always `asc` or `desc`. -/
theorem sort_by_validates (columns : List String) (field direction : String) :
    (field ∈ columns → direction = "asc" ∨ direction = "desc" →
      sort_by columns field direction = (field, direction)) ∧
    (field ∉ columns → (sort_by columns field direction).1 = "created_at") ∧
    (¬ (direction = "asc" ∨ direction = "desc") →
      (sort_by columns field direction).2 = "asc") ∧
    ((sort_by columns field direction).1 ∈ columns ∨
      (sort_by columns field direction).1 = "created_at") ∧
    ((sort_by columns field direction).2 = "asc" ∨
      (sort_by columns field direction).2 = "desc") := by
  unfold sort_by
  refine ⟨fun hf hd => ?_, fun hf => ?_, fun hd => ?_, ?_, ?_⟩
  · simp [hf, hd]
  · simp [hf]
  · simp [hd]
  · by_cases hf : field ∈ columns <;> simp [hf]
  · by_cases hd : direction = "asc" ∨ direction = "desc"
    · rcases hd with hd | hd <;> simp [hd]
    · simp [hd]

/-- Witness for C1 at concrete inputs: a valid pair passes through, an
invalid field becomes `created_at`, an invalid direction becomes `asc`. -/
theorem sort_by_validates_witness :
    sort_by ["id", "name"] "name" "desc" = ("name", "desc") ∧
    (sort_by ["id", "name"] "bogus" "desc").1 = "created_at" ∧
    (sort_by ["id", "name"] "name" "sideways").2 = "asc" := by
  refine ⟨?_, ?_, ?_⟩
  · exact (sort_by_validates ["id", "name"] "name" "desc").1
      (by decide) (Or.inr rfl)
  · exact (sort_by_validates ["id", "name"] "bogus" "desc").2.1 (by decide)
  · exact (sort_by_validates ["id", "name"] "name" "sideways").2.2.1
      (by decide)

/-- Scanning a stream of strings for an integer never finds a match:
Python `int == str` is `False`, so the whole iterator is consumed. -/
lemma iterContains_intV_map_strV (n : Int) (l : List PyVal) :
    iterContains (PyVal.intV n) (l.map (fun v => PyVal.strV (pyStr v))) =
      (false, []) := by
  induction l with
  | nil => rfl
  | cons y ys ih => simpa [iterContains, pyEq] using ih

/-- The comprehension filter keeps everything once the iterator is
exhausted. -/
lemma compFilter_nil_iter (ids : List PyVal) : compFilter ids [] = ids := by
  induction ids with
  | nil => rfl
  | cons id ids ih => simp [compFilter, iterContains, ih]

/-- C9: `get_bulk_action_ids` coerces `omit_ids` to strings before
filtering, so integer ids are never equal to any omitted entry and the
input list is returned unchanged, whatever `omit_ids` holds and even when
the same integer appears in it. -/
theorem get_bulk_action_ids_int_ids (ids omit_ids : List PyVal)
    (hids : ∀ v ∈ ids, v.isInt = true) :
    get_bulk_action_ids ids omit_ids = ids := by
  unfold get_bulk_action_ids
  cases ids with
  | nil => rfl
  | cons id rest =>
    have hid : id.isInt = true := hids id (List.mem_cons_self id rest)
    cases id with
    | strV s => simp [PyVal.isInt] at hid
    | intV n =>
      simp only [compFilter, iterContains_intV_map_strV]
      simpa using compFilter_nil_iter rest

/-- Witness for C9: the integer id 2 is not filtered out even though 2 is
among the omitted ids. -/
theorem get_bulk_action_ids_int_ids_witness :
    get_bulk_action_ids [PyVal.intV 1, PyVal.intV 2] [PyVal.intV 2] =
      [PyVal.intV 1, PyVal.intV 2] :=
  get_bulk_action_ids_int_ids [PyVal.intV 1, PyVal.intV 2] [PyVal.intV 2]
    (by decide)

/-- C6: `bulk_delete` removes exactly the rows whose id is in `ids`, keeps
every other row unchanged (the remaining table is a sublist of the
original), and returns the number of deleted instances. -/
theorem bulk_delete_spec (ids : List Int) (table : List Row) :
    (∀ r : Row, r ∈ (bulk_delete ids table).2 ↔ r ∈ table ∧ r.id ∉ ids) ∧
    (bulk_delete ids table).2.Sublist table ∧
    (bulk_delete ids table).1 = table.countP (fun r => r.id ∈ ids) ∧
    (bulk_delete ids table).1 + (bulk_delete ids table).2.length =
      table.length := by
  refine ⟨fun r => ?_, ?_, ?_, ?_⟩
  · simp [bulk_delete, List.mem_filter]
  · exact List.filter_sublist table
  · simp [bulk_delete, List.countP_eq_length_filter]
  · simp only [bulk_delete]
    induction table with
    | nil => rfl
    | cons r rows ih =>
      by_cases h : r.id ∈ ids
      · rw [List.filter_cons_of_pos (by simpa using h),
          List.filter_cons_of_neg (by simpa using h), List.length_cons,
          List.length_cons, Nat.succ_add]
        exact congrArg Nat.succ ih
      · rw [List.filter_cons_of_neg (by simpa using h),
          List.filter_cons_of_pos (by simpa using h), List.length_cons,
          List.length_cons, Nat.add_succ]
        exact congrArg Nat.succ ih

/-- The loop step never changes the value of an attribute other than the
one named by the current key. -/
lemma updStep_apply_ne {V : Type} (acc : Obj V) (kv : String × V)
    (k : String) (h : k ≠ kv.1) : updStep acc kv k = acc k := by
  unfold updStep
  by_cases hh : hasattr acc kv.1 <;> simp [hh, setattr, h]

/-- The loop step preserves which attributes exist: it only overwrites
attributes that are already present. -/
lemma hasattr_updStep {V : Type} (acc : Obj V) (kv : String × V)
    (k : String) : hasattr (updStep acc kv) k = hasattr acc k := by
  unfold updStep
  by_cases hh : hasattr acc kv.1 = true
  · rw [if_pos hh]
    by_cases hk : k = kv.1
    · subst hk
      simpa [hasattr, setattr] using hh.symm
    · simp [hasattr, setattr, hk]
  · rw [if_neg hh]

/-- The whole loop preserves which attributes exist. -/
lemma hasattr_foldl_updStep {V : Type} (values : List (String × V))
    (o : Obj V) (k : String) :
    hasattr (values.foldl updStep o) k = hasattr o k := by
  induction values generalizing o with
  | nil => rfl
  | cons kv rest ih => simp [List.foldl_cons, ih, hasattr_updStep]

/-- An attribute whose name occurs in no key of `values` keeps its value. -/
lemma foldl_updStep_not_mem {V : Type} (values : List (String × V))
    (o : Obj V) (k : String) (h : k ∉ values.map Prod.fst) :
    values.foldl updStep o k = o k := by
  induction values generalizing o with
  | nil => rfl
  | cons kv rest ih =>
    simp only [List.map_cons, List.mem_cons] at h
    push_neg at h
    rw [List.foldl_cons, ih (updStep o kv) h.2, updStep_apply_ne o kv k h.1]

/-- A name that is no attribute of the instance is never assigned: the
`hasattr` guard skips it at every iteration. -/
lemma foldl_updStep_no_attr {V : Type} (values : List (String × V))
    (o : Obj V) (k : String) (h : hasattr o k = false) :
    values.foldl updStep o k = o k := by
  induction values generalizing o with
  | nil => rfl
  | cons kv rest ih =>
    rw [List.foldl_cons]
    by_cases hk : k = kv.1
    · subst hk
      have hstep : updStep o kv = o := by
        unfold updStep; simp [h]
      rw [hstep, ih o h]
    · rw [ih (updStep o kv) (by simpa [hasattr_updStep] using h),
        updStep_apply_ne o kv k hk]

/-- A key of `values` that names an existing attribute ends up assigned to
its dict value (dict keys are pairwise distinct). -/
lemma foldl_updStep_mem {V : Type} (values : List (String × V)) (o : Obj V)
    (k : String) (v : V) (hnodup : (values.map Prod.fst).Nodup)
    (hmem : (k, v) ∈ values) (hattr : hasattr o k = true) :
    values.foldl updStep o k = some v := by
  induction values generalizing o with
  | nil => simp at hmem
  | cons kv rest ih =>
    simp only [List.map_cons, List.nodup_cons] at hnodup
    rcases List.mem_cons.mp hmem with heq | htail
    · subst heq
      have hstep : updStep o (k, v) = setattr o k v := by
        unfold updStep; simp [hattr]
      have hk_not : k ∉ rest.map Prod.fst := hnodup.1
      rw [List.foldl_cons, hstep, foldl_updStep_not_mem rest _ k hk_not]
      simp [setattr]
    · have hk_ne : k ≠ kv.1 := by
        intro hk
        exact hnodup.1 (hk ▸ (List.mem_map.mpr ⟨(k, v), htail, rfl⟩))
      rw [List.foldl_cons]
      exact ih (updStep o kv) hnodup.2 htail
        (by simpa [hasattr_updStep] using hattr)

/-- C7: `update` assigns, for each key of `values` naming an existing
attribute, that key's value; attributes not named keep their value; keys
naming no attribute are silently ignored; and the returned value is the
updated instance itself (`return self`). -/
theorem update_spec {V : Type} (o : Obj V) (values : List (String × V))
    (hnodup : (values.map Prod.fst).Nodup) :
    (∀ k v, (k, v) ∈ values → hasattr o k = true →
      (update o values).1 k = some v) ∧
    (∀ k, k ∉ values.map Prod.fst → (update o values).1 k = o k) ∧
    (∀ k, hasattr o k = false → (update o values).1 k = o k) ∧
    (update o values).2 = (update o values).1 := by
  refine ⟨fun k v hmem hattr => ?_, fun k h => ?_, fun k h => ?_, rfl⟩
  · exact foldl_updStep_mem values o k v hnodup hmem hattr
  · exact foldl_updStep_not_mem values o k h
  · exact foldl_updStep_no_attr values o k h

/-- Witness for C7 on a concrete instance with attributes `name` and `id`:
an existing key is assigned, an absent key is ignored, an untouched
attribute keeps its value. -/
theorem update_spec_witness :
    (update (V := String)
      (fun k => if k = "name" then some "old"
        else if k = "id" then some "1" else none)
      [("name", "new"), ("ghost", "x")]).1 "name" = some "new" ∧
    (update (V := String)
      (fun k => if k = "name" then some "old"
        else if k = "id" then some "1" else none)
      [("name", "new"), ("ghost", "x")]).1 "ghost" = none ∧
    (update (V := String)
      (fun k => if k = "name" then some "old"
        else if k = "id" then some "1" else none)
      [("name", "new"), ("ghost", "x")]).1 "id" = some "1" := by
  refine ⟨?_, ?_, ?_⟩
  · exact (update_spec _ [("name", "new"), ("ghost", "x")] (by decide)).1
      "name" "new" (by decide) (by decide)
  · exact ((update_spec _ [("name", "new"), ("ghost", "x")]
      (by decide)).2.2.1 "ghost" (by decide)).trans (by decide)
  · exact ((update_spec _ [("name", "new"), ("ghost", "x")]
      (by decide)).2.1 "id" (by decide)).trans (by decide)

/-- C2: when schema validation fails, the login handler answers
`{errors: messages}` with status 422 and its result does not depend on
`authentication_manager.login` (the delegate is not called); when
validation succeeds it returns exactly the delegate's result on the
validated data. -/
theorem login_spec {J E D R : Type} (load : J → Except E D)
    (mgr_login : D → R) (j : J) :
    (∀ e, load j = Except.error e →
      login load mgr_login j = LoginResult.validationError e 422 ∧
      ∀ mgr' : D → R, login load mgr_login j = login load mgr' j) ∧
    (∀ d, load j = Except.ok d →
      login load mgr_login j = LoginResult.success (mgr_login d)) := by
  refine ⟨fun e he => ⟨?_, fun mgr' => ?_⟩, fun d hd => ?_⟩
  · simp [login, he]
  · simp [login, he]
  · simp [login, hd]

/-- Witness for C2 with a concrete schema that rejects 0 and a concrete
authentication manager: the invalid payload yields the 422 error result,
the valid payload yields the manager's result. -/
theorem login_spec_witness :
    login (fun n : Nat => if n = 0 then Except.error "bad" else Except.ok n)
      (fun n => n + 1) 0 = LoginResult.validationError "bad" 422 ∧
    login (fun n : Nat => if n = 0 then Except.error "bad" else Except.ok n)
      (fun n => n + 1) 5 = LoginResult.success 6 :=
  ⟨((login_spec (fun n : Nat =>
      if n = 0 then Except.error "bad" else Except.ok n)
      (fun n => n + 1) 0).1 "bad" rfl).1,
   (login_spec (fun n : Nat =>
      if n = 0 then Except.error "bad" else Except.ok n)
      (fun n => n + 1) 5).2 5 rfl⟩

/-- C3: for both revocation handlers, any exception from
`authentication_manager.revoke_token` is caught by the bare `except:` and
mapped to `{message: Something went wrong}` with status 500, and success
yields the success message with status 200; being total functions of the
delegate's outcome, the handlers propagate no exception. -/
theorem revoke_error_handling {E : Type}
    (revoke_token : String → Except E Unit) (jti : String) :
    (∀ e, revoke_token jti = Except.error e →
      access_token_revoke revoke_token jti = ("Something went wrong", 500) ∧
      refresh_token_revoke revoke_token jti =
        ("Something went wrong", 500)) ∧
    (∀ u, revoke_token jti = Except.ok u →
      access_token_revoke revoke_token jti =
        ("Access token has been revoked", 200) ∧
      refresh_token_revoke revoke_token jti =
        ("Access token has been revoked", 200)) := by
  constructor
  · intro e he
    constructor
    · simp [access_token_revoke, he]
    · simp [refresh_token_revoke, he]
  · intro u hu
    constructor
    · simp [access_token_revoke, hu]
    · simp [refresh_token_revoke, hu]

/-- Witness for C3: a delegate that raises maps to the 500 response, one
that succeeds maps to the 200 response. -/
theorem revoke_error_handling_witness :
    access_token_revoke (fun _ => Except.error "boom") "jti1" =
      ("Something went wrong", 500) ∧
    refresh_token_revoke (E := String) (fun _ => Except.ok ()) "jti1" =
      ("Access token has been revoked", 200) :=
  ⟨((revoke_error_handling (fun _ => Except.error "boom") "jti1").1
      "boom" rfl).1,
   ((revoke_error_handling (E := String) (fun _ => Except.ok ()) "jti1").2
      () rfl).2⟩

/-- C8: the two reset-password handlers are stubs whose body is a bare
`pass`: for every state and token they change nothing and return `None`. -/
theorem reset_password_stubs {St Resp : Type} (s : St) (token : String) :
    @reset_password_request St Resp s = (s, none) ∧
    @reset_password St Resp token s = (s, none) :=
  ⟨rfl, rfl⟩

/-- C10: the two revocation handlers are behaviourally identical for the
same token jti and delegate, and on success the refresh-revoke endpoint
returns the access-token success message, not a refresh-specific one. -/
theorem revoke_handlers_identical {E : Type}
    (revoke_token : String → Except E Unit) (jti : String) :
    access_token_revoke revoke_token jti =
      refresh_token_revoke revoke_token jti ∧
    (∀ u, revoke_token jti = Except.ok u →
      refresh_token_revoke revoke_token jti =
        ("Access token has been revoked", 200)) := by
  refine ⟨rfl, fun u hu => ?_⟩
  simp [refresh_token_revoke, hu]

/-- Witness for C10: with a succeeding delegate, both handlers agree and
the refresh endpoint answers with the access-token message. -/
theorem revoke_handlers_identical_witness :
    access_token_revoke (E := Unit) (fun _ => Except.ok ()) "jti2" =
      refresh_token_revoke (E := Unit) (fun _ => Except.ok ()) "jti2" ∧
    refresh_token_revoke (E := Unit) (fun _ => Except.ok ()) "jti2" =
      ("Access token has been revoked", 200) :=
  ⟨(revoke_handlers_identical (E := Unit) (fun _ => Except.ok ())
      "jti2").1,
   (revoke_handlers_identical (E := Unit) (fun _ => Except.ok ())
      "jti2").2 () rfl⟩

/-- C4: whenever a fixture helper returns a date, the corresponding
`is_exists` check is false on it for that machine at return time, so the
seeded (date, machine) pair is fresh within its measurement type. -/
theorem fixture_dates_fresh (is_exists : String → Int → Bool)
    (dates : Nat → String) (machine_id : Int) (fuel k : Nat) (d : String) :
    (_get_rotation_date is_exists dates machine_id fuel k = some d →
      is_exists d machine_id = false) ∧
    (_get_operating_time_date is_exists dates machine_id fuel k = some d →
      is_exists d machine_id = false) := by
  induction fuel generalizing k with
  | zero =>
    exact ⟨fun h => by simp [_get_rotation_date] at h,
      fun h => by simp [_get_operating_time_date] at h⟩
  | succ fuel ih =>
    constructor
    · intro h
      simp only [_get_rotation_date] at h
      cases hb : is_exists (dates k) machine_id
      · rw [if_neg (by simp [hb])] at h
        obtain rfl : dates k = d := Option.some.inj h
        exact hb
      · rw [if_pos (by simp [hb])] at h
        exact (ih (k + 1)).1 h
    · intro h
      simp only [_get_operating_time_date] at h
      cases hb : is_exists (dates k) machine_id
      · rw [if_neg (by simp [hb])] at h
        obtain rfl : dates k = d := Option.some.inj h
        exact hb
      · rw [if_pos (by simp [hb])] at h
        exact (ih (k + 1)).2 h

/-- Witness for C4: with an existence check marking only `used` and a draw
stream whose first draw is `used` and second is `fresh`, the helper
returns `fresh`, on which the check is false. -/
theorem fixture_dates_fresh_witness :
    ("fresh" == "used") = false :=
  (fixture_dates_fresh (fun d _ => d == "used")
    (fun k => if k == 0 then "used" else "fresh") 1 2 0 "fresh").1
    (by decide)

/-- The draws all hit the recorded date, so the helper recurses forever:
no amount of fuel makes it return. -/
lemma stuck_rotation_loops (fuel k : Nat) :
    _get_rotation_date stuckExists stuckDates 1 fuel k = none := by
  induction fuel generalizing k with
  | zero => rfl
  | succ fuel ih =>
    have hc : stuckExists (stuckDates k) 1 = true := rfl
    simp only [_get_rotation_date]
    rw [if_pos hc]
    exact ih (k + 1)

/-- Same divergence for the operating-time helper. -/
lemma stuck_operating_loops (fuel k : Nat) :
    _get_operating_time_date stuckExists stuckDates 1 fuel k = none := by
  induction fuel generalizing k with
  | zero => rfl
  | succ fuel ih =>
    have hc : stuckExists (stuckDates k) 1 = true := rfl
    simp only [_get_operating_time_date]
    rw [if_pos hc]
    exact ih (k + 1)

/-- C5 counterexample: a date of the year's range (`2025-01-02`) has no
existing record for machine 1, yet because every random draw proposes the
recorded date `2025-01-01`, neither helper ever returns, whatever fuel it
is given — the claim's precondition does not guarantee termination. -/
theorem fixture_termination_counterexample :
    ("2025-01-02" ∈ yearRange ∧ stuckExists "2025-01-02" 1 = false) ∧
    (∀ k, stuckDates k ∈ yearRange) ∧
    (∀ fuel k, _get_rotation_date stuckExists stuckDates 1 fuel k = none) ∧
    (∀ fuel k,
      _get_operating_time_date stuckExists stuckDates 1 fuel k = none) :=
  ⟨⟨by decide, by decide⟩, fun k => by simp [stuckDates, yearRange],
    stuck_rotation_loops, stuck_operating_loops⟩

/-- C5 as amended: the helpers terminate with a date string provided the
stream of random draws itself yields, within the available recursion
budget, a date with no existing record for the machine. -/
theorem fixture_termination_of_fresh_draw (is_exists : String → Int → Bool)
    (dates : Nat → String) (machine_id : Int) (fuel k : Nat)
    (h : ∃ j, k ≤ j ∧ j < k + fuel ∧
      is_exists (dates j) machine_id = false) :
    (∃ d, _get_rotation_date is_exists dates machine_id fuel k = some d) ∧
    (∃ d, _get_operating_time_date is_exists dates machine_id fuel k =
      some d) := by
  induction fuel generalizing k with
  | zero =>
    obtain ⟨j, hkj, hlt, _⟩ := h
    omega
  | succ fuel ih =>
    by_cases hk : is_exists (dates k) machine_id = true
    · have h' : ∃ j, k + 1 ≤ j ∧ j < (k + 1) + fuel ∧
          is_exists (dates j) machine_id = false := by
        obtain ⟨j, hkj, hlt, hj⟩ := h
        refine ⟨j, ?_, by omega, hj⟩
        rcases Nat.eq_or_lt_of_le hkj with rfl | hlt2
        · simp [hk] at hj
        · omega
      constructor
      · obtain ⟨d, hd⟩ := (ih (k + 1) h').1
        refine ⟨d, ?_⟩
        simp only [_get_rotation_date]
        rw [if_pos hk]
        exact hd
      · obtain ⟨d, hd⟩ := (ih (k + 1) h').2
        refine ⟨d, ?_⟩
        simp only [_get_operating_time_date]
        rw [if_pos hk]
        exact hd
    · refine ⟨⟨dates k, ?_⟩, ⟨dates k, ?_⟩⟩
      · simp only [_get_rotation_date]
        rw [if_neg hk]
      · simp only [_get_operating_time_date]
        rw [if_neg hk]

/-- Witness for the amended C5: the second draw is fresh, so with fuel 2
both helpers return a date. -/
theorem fixture_termination_of_fresh_draw_witness :
    (∃ d, _get_rotation_date (fun d _ => d == "taken")
      (fun k => if k == 0 then "taken" else "open") 1 2 0 = some d) ∧
    (∃ d, _get_operating_time_date (fun d _ => d == "taken")
      (fun k => if k == 0 then "taken" else "open") 1 2 0 = some d) :=
  fixture_termination_of_fresh_draw (fun d _ => d == "taken")
    (fun k => if k == 0 then "taken" else "open") 1 2 0
    ⟨1, Nat.zero_le 1, by decide, by decide⟩

end FlaskApi
